import Mathlib

/-!
Shallow embedding of the probing and normalization subsystem of the
terraform-provider-probe repository, together with proofs about the claims
of its specification.

Conventions of the embedding:

* Go strings are Lean String values; Go byte/character indexing is modelled
  on String.data (the character list). The helpers goHasPrefix, goSplit,
  goToLower and contains embed strings.HasPrefix, strings.Split,
  strings.ToLower and the repository-local contains helper.
* Go maps with string keys are modelled as association lists with distinct
  keys, read through goMapLookup (first match). Iteration order of a Go map
  is not observable in any embedded function except SupportedTypes, whose
  output order is determinized to table order (the claims below only use
  membership in that list).
* float64 payloads are carried opaquely (structure GoFloat); no embedded
  function inspects them.
* Fallible Go functions returning (T, error) are modelled as Except;
  a panic of types.ListValueMust is modelled as Except.error (the source
  never constructs a non-nil error itself, so the error component of
  convertToAttrValue is exactly the Must panic).
* Backend SDK calls are modelled by passing the call outcomes in a
  responses structure; each prober is a pure function of those outcomes.
-/

/-! Go string primitives -/

/-- Embeds Go strings.HasPrefix(s, p). -/
def goHasPrefix (s p : String) : Bool :=
  p.data.isPrefixOf s.data

/-- Embeds Go strings.Split(s, sep) for a non-empty separator. -/
def goSplit (s sep : String) : List String :=
  s.splitOn sep

/-- Embeds Go strings.ToLower. -/
def goToLower (s : String) : String :=
  s.toLower

/-- Embeds aws.ToString on a *string: nil becomes the empty string. -/
def awsToString (s : Option String) : String :=
  s.getD ""

/-- Embeds the repository helper contains(s, substr): a scan of every
index i with 0 <= i <= len(s)-len(substr) testing s[i:i+len(substr)] == substr.
When substr is longer than s the Go loop body never runs; here the single
i = 0 test then compares lists of different lengths and is false, so the
two definitions agree on every input. -/
def contains (s substr : String) : Bool :=
  (List.range (s.data.length - substr.data.length + 1)).any
    (fun i => decide (List.take substr.data.length (List.drop i s.data) = substr.data))

/-- Embeds a read of a Go map with string keys, represented as an
association list with distinct keys. -/
def goMapLookup {α : Type} : List (String × α) → String → Option α
  | [], _ => none
  | (k, v) :: rest, key => if k = key then some v else goMapLookup rest key

/-! Type name resolver (prober_registry.go and the Cloud Control resolver) -/

/-- Embeds the normalizedTypes map: both Terraform and Cloud Control type
names to a canonical key. -/
def normalizedTypes : List (String × String) :=
  [("aws_dynamodb_table", "aws_dynamodb_table"),
   ("AWS::DynamoDB::Table", "aws_dynamodb_table"),
   ("dynamodb_table", "aws_dynamodb_table"),
   ("AWS::DynamoDB::GlobalTable", "aws_dynamodb_table"),
   ("aws_s3_bucket", "aws_s3_bucket"),
   ("AWS::S3::Bucket", "aws_s3_bucket"),
   ("s3_bucket", "aws_s3_bucket")]

/-- Embeds normalizeTypeName: direct mapping, then aws_ passthrough, then
AWS::Service::Resource conversion when the split has exactly three parts,
else passthrough. -/
def normalizeTypeName (typeName : String) : String :=
  match goMapLookup normalizedTypes typeName with
  | some canonical => canonical
  | none =>
    if goHasPrefix typeName "aws_" then typeName
    else if goHasPrefix typeName "AWS::" then
      match goSplit typeName "::" with
      | [_, service, resource] => "aws_" ++ goToLower service ++ "_" ++ goToLower resource
      | _ => typeName
    else typeName

/-- Embeds the tfToCloudControl map of resource_types.go. -/
def tfToCloudControl : List (String × String) :=
  [("aws_lambda_function", "AWS::Lambda::Function"),
   ("aws_ecs_cluster", "AWS::ECS::Cluster"),
   ("aws_ecs_service", "AWS::ECS::Service"),
   ("aws_ecs_task", "AWS::ECS::TaskDefinition"),
   ("aws_dynamodb_table", "AWS::DynamoDB::Table"),
   ("aws_s3_bucket", "AWS::S3::Bucket"),
   ("aws_sqs_queue", "AWS::SQS::Queue"),
   ("aws_sns_topic", "AWS::SNS::Topic"),
   ("aws_iam_role", "AWS::IAM::Role"),
   ("aws_iam_policy", "AWS::IAM::ManagedPolicy"),
   ("aws_iam_user", "AWS::IAM::User"),
   ("aws_iam_group", "AWS::IAM::Group"),
   ("aws_apigatewayv2_api", "AWS::ApiGatewayV2::Api"),
   ("aws_api_gateway_rest_api", "AWS::ApiGateway::RestApi"),
   ("aws_vpc", "AWS::EC2::VPC"),
   ("aws_subnet", "AWS::EC2::Subnet"),
   ("aws_security_group", "AWS::EC2::SecurityGroup"),
   ("aws_internet_gateway", "AWS::EC2::InternetGateway"),
   ("aws_secretsmanager_secret", "AWS::SecretsManager::Secret"),
   ("aws_ssm_parameter", "AWS::SSM::Parameter"),
   ("aws_cloudwatch_log_group", "AWS::Logs::LogGroup"),
   ("aws_cloudwatch_metric_alarm", "AWS::CloudWatch::Alarm"),
   ("aws_sfn_state_machine", "AWS::StepFunctions::StateMachine"),
   ("aws_cloudwatch_event_rule", "AWS::Events::Rule"),
   ("aws_cloudwatch_event_bus", "AWS::Events::EventBus"),
   ("aws_kinesis_stream", "AWS::Kinesis::Stream"),
   ("aws_db_instance", "AWS::RDS::DBInstance"),
   ("aws_db_cluster", "AWS::RDS::DBCluster"),
   ("aws_elasticache_cluster", "AWS::ElastiCache::CacheCluster")]

/-- Embeds resolveCloudControlType: mapped name, AWS:: passthrough, else
passthrough unchanged. -/
def resolveCloudControlType (tfType : String) : String :=
  match goMapLookup tfToCloudControl tfType with
  | some mapped => mapped
  | none =>
    if goHasPrefix tfType "AWS::" then tfType
    else tfType

/-! Prober registry -/

/-- The two concrete prober implementations selectable by the registry. -/
inductive ResourceProber where
  | dynamoDBProber
  | s3Prober
deriving DecidableEq, Repr

/-- Embeds the proberFactories map (a factory is modelled by the prober it
constructs; the ambient aws.Config does not influence dispatch). -/
def proberFactories : List (String × ResourceProber) :=
  [("aws_dynamodb_table", ResourceProber.dynamoDBProber),
   ("aws_s3_bucket", ResourceProber.s3Prober)]

/-- Embeds ProberRegistry: the per-registry cache of constructed probers. -/
structure ProberRegistry where
  probers : List (String × ResourceProber)
deriving DecidableEq, Repr

/-- Embeds ProberRegistry.GetProber; the returned registry carries the
updated cache (Go mutates the receiver). -/
def ProberRegistry.GetProber (r : ProberRegistry) (resourceType : String) :
    Except String (ResourceProber × ProberRegistry) :=
  let canonicalType := normalizeTypeName resourceType
  match goMapLookup r.probers canonicalType with
  | some prober => .ok (prober, r)
  | none =>
    match goMapLookup proberFactories canonicalType with
    | some factory => .ok (factory, ⟨r.probers ++ [(canonicalType, factory)]⟩)
    | none => .error ("unsupported resource type: " ++ resourceType)

/-- Embeds the loop of ProberRegistry.SupportedTypes, iterating the
normalizedTypes values in table order (the Go map iteration order is
arbitrary; only membership in the result is used below). -/
def supportedTypesLoop : List (String × String) → List String → List String → List String
  | [], _, types => types
  | (_, canonical) :: rest, seen, types =>
    if seen.contains canonical then supportedTypesLoop rest seen types
    else if (goMapLookup proberFactories canonical).isSome then
      supportedTypesLoop rest (seen ++ [canonical]) (types ++ [canonical])
    else supportedTypesLoop rest (seen ++ [canonical]) types

/-- Embeds ProberRegistry.SupportedTypes. -/
def ProberRegistry.SupportedTypes (_ : ProberRegistry) : List String :=
  supportedTypesLoop normalizedTypes [] []

/-! Value converter (probe_data_source.go) -/

/-- Opaque float64 payload; no embedded function inspects it. -/
structure GoFloat where
  rep : Int
deriving DecidableEq, Repr

/-- The Go values reaching convertToAttrValue: nil, string, float64, bool,
[]interface, map[string]interface (JSON-shaped data), and the host-native
int/int64 values exercised by the conversion unit tests, which fall into
the default branch of the type switch. -/
inductive GoValue where
  | nil
  | str (s : String)
  | num (x : GoFloat)
  | bool (b : Bool)
  | int (n : Int)
  | list (elems : List GoValue)
  | map (fields : List (String × GoValue))

/-- The attr.Type values produced by the converter. -/
inductive AttrType where
  | string
  | float64
  | bool
  | list (elem : AttrType)
  | map (elem : AttrType)
  | object (attrTypes : List (String × AttrType))

mutual

/-- Structural equality of attr.Type values (types.Type Equal). -/
def AttrType.beq : AttrType → AttrType → Bool
  | .string, .string => true
  | .float64, .float64 => true
  | .bool, .bool => true
  | .list a, .list b => AttrType.beq a b
  | .map a, .map b => AttrType.beq a b
  | .object xs, .object ys => AttrType.beqFields xs ys
  | _, _ => false

/-- Pointwise equality of object attribute types. -/
def AttrType.beqFields : List (String × AttrType) → List (String × AttrType) → Bool
  | [], [] => true
  | (k, a) :: xs, (l, b) :: ys => k == l && AttrType.beq a b && AttrType.beqFields xs ys
  | _, _ => false

end

/-- The attr.Value values produced by the converter. -/
inductive AttrValue where
  | stringNull
  | stringVal (s : String)
  | float64Val (x : GoFloat)
  | boolVal (b : Bool)
  | listNull (elem : AttrType)
  | listVal (elem : AttrType) (elems : List AttrValue)
  | mapNull (elem : AttrType)
  | objectVal (attrTypes : List (String × AttrType)) (fields : List (String × AttrValue))

/-- The attr.Type of a produced attr.Value (value.Type(ctx)). -/
def AttrValue.typeOf : AttrValue → AttrType
  | .stringNull => .string
  | .stringVal _ => .string
  | .float64Val _ => .float64
  | .boolVal _ => .bool
  | .listNull t => .list t
  | .listVal t _ => .list t
  | .mapNull t => .map t
  | .objectVal ts _ => .object ts

/-- Whether a produced attr.Value is the explicit null marker (IsNull). -/
def AttrValue.isNull : AttrValue → Bool
  | .stringNull => true
  | .listNull _ => true
  | .mapNull _ => true
  | _ => false

mutual

/-- Embeds convertToAttrValue. An Except.error models the panic of
types.ListValueMust when an element type differs from the declared element
type taken from the first element; the source itself never returns a
non-nil error from a leaf case. The int case lands in the default branch
of the Go type switch and is rendered through fmt.Sprintf. -/
def convertToAttrValue : GoValue → Except String AttrValue
  | .nil => .ok .stringNull
  | .str s => .ok (.stringVal s)
  | .num x => .ok (.float64Val x)
  | .bool b => .ok (.boolVal b)
  | .list [] => .ok (.listNull .string)
  | .list (v :: vs) =>
    match convertToAttrValue v with
    | .error e => .error e
    | .ok a =>
      match convertElems vs with
      | .error e => .error e
      | .ok as =>
        let elemType := a.typeOf
        if (a :: as).all (fun e => AttrType.beq e.typeOf elemType) then
          .ok (.listVal elemType (a :: as))
        else
          .error "ListValueMust: mismatched element types"
  | .map [] => .ok (.mapNull .string)
  | .map (kv :: kvs) =>
    match convertFields (kv :: kvs) with
    | .error e => .error e
    | .ok fields =>
      .ok (.objectVal (fields.map (fun f => (f.1, f.2.typeOf))) fields)
  | .int n => .ok (.stringVal (toString n))

/-- Embeds the element-conversion loop of the []interface case. -/
def convertElems : List GoValue → Except String (List AttrValue)
  | [] => .ok []
  | v :: vs =>
    match convertToAttrValue v with
    | .error e => .error e
    | .ok a =>
      match convertElems vs with
      | .error e => .error e
      | .ok as => .ok (a :: as)

/-- Embeds the field-conversion loop of the map[string]interface case. -/
def convertFields : List (String × GoValue) → Except String (List (String × AttrValue))
  | [] => .ok []
  | (k, v) :: rest =>
    match convertToAttrValue v with
    | .error e => .error e
    | .ok a =>
      match convertFields rest with
      | .error e => .error e
      | .ok fs => .ok ((k, a) :: fs)

end

/-! ARN extractor (the arnFields priority list and extractArn) -/

/-- Embeds the arnFields priority list. -/
def arnFields : List String :=
  ["Arn", "TableArn", "FunctionArn", "RoleArn", "BucketArn", "QueueArn",
   "TopicArn", "ClusterArn", "ServiceArn", "TaskDefinitionArn", "SecretArn",
   "StateMachineArn", "StreamArn", "LogGroupArn", "DBInstanceArn",
   "DBClusterArn", "CacheClusterArn", "VpcId", "ApiId"]

/-- Embeds the loop body of extractArn: the type assertion
properties[field].(string) succeeds only on a present string value, and the
value is used only when non-empty. -/
def extractArnLoop : List String → List (String × GoValue) → String
  | [], _ => ""
  | field :: rest, properties =>
    match goMapLookup properties field with
    | some (GoValue.str arn) =>
      if arn ≠ "" then arn else extractArnLoop rest properties
    | _ => extractArnLoop rest properties

/-- Embeds extractArn; none models a nil properties map. -/
def extractArn (properties : Option (List (String × GoValue))) : String :=
  match properties with
  | none => ""
  | some props => extractArnLoop arnFields props

/-! Backend probers (S3 and DynamoDB) -/

/-- Values stored in a ProbeResult properties map: strings, booleans,
tag maps, and structured SDK payloads carried opaquely. -/
inductive PropValue where
  | str (s : String)
  | bool (b : Bool)
  | strMap (m : List (String × String))
  | hostVal (tag : String)
deriving DecidableEq, Repr

/-- Embeds ProbeResult; zero values of the Go struct are false, the
empty string and empty lists. -/
structure ProbeResult where
  Exists : Bool
  Arn : String
  Properties : List (String × PropValue)
  Tags : List (String × String)
deriving DecidableEq, Repr

/-- Classification of a HeadBucket error: a typed *types.NotFound, a typed
*types.NoSuchBucket (both matched by errors.As), or any other error carrying
its message (err.Error()). -/
inductive S3Error where
  | notFound (msg : String)
  | noSuchBucket (msg : String)
  | other (msg : String)
deriving DecidableEq, Repr

/-- Embeds isS3NotFound: a substring scan of the error message. -/
def isS3NotFound (errStr : String) : Bool :=
  contains errStr "404" || contains errStr "NotFound" || contains errStr "NoSuchBucket"

/-- Outcomes of the backend calls issued by S3Prober.Probe. -/
structure S3Responses where
  headBucket : Option S3Error
  getBucketLocation : Except String String
  getBucketTagging : Except String (List (String × String))

/-- Embeds S3Prober.Probe as a function of the backend call outcomes. -/
def S3Prober.Probe (responses : S3Responses) (identifier : String) :
    Except S3Error ProbeResult :=
  match responses.headBucket with
  | some err =>
    match err with
    | .notFound _ => .ok ⟨false, "", [], []⟩
    | .noSuchBucket _ => .ok ⟨false, "", [], []⟩
    | .other msg =>
      if isS3NotFound msg then .ok ⟨false, "", [], []⟩
      else .error (.other msg)
  | none =>
    let arn := "arn:aws:s3:::" ++ identifier
    let props0 : List (String × PropValue) :=
      [("BucketName", .str identifier), ("Arn", .str arn)]
    let props1 :=
      match responses.getBucketLocation with
      | .ok locationConstraint =>
        let region := if locationConstraint = "" then "us-east-1" else locationConstraint
        props0 ++ [("Region", .str region)]
      | .error _ => props0
    match responses.getBucketTagging with
    | .ok tagSet =>
      if tagSet.length > 0 then
        .ok ⟨true, arn, props1 ++ [("Tags", .strMap tagSet)], tagSet⟩
      else .ok ⟨true, arn, props1, []⟩
    | .error _ => .ok ⟨true, arn, props1, []⟩

/-- Classification of a DescribeTable error: a typed
*types.ResourceNotFoundException, or any other error. -/
inductive DynamoError where
  | resourceNotFound (msg : String)
  | other (msg : String)
deriving DecidableEq, Repr

/-- Embeds the table description used by DynamoDBProber.Probe; structured
SDK payloads stored into map[string]any without inspection are carried as
opaque PropValue entries. -/
structure TableDescription where
  TableName : Option String
  TableArn : Option String
  TableStatus : String
  TableId : Option String
  CreationDateTime : PropValue
  ItemCount : PropValue
  TableSizeBytes : PropValue
  DeletionProtectionEnabled : Option Bool
  BillingModeSummary : PropValue
  ProvisionedThroughput : PropValue
  KeySchema : PropValue
  AttributeDefinitions : PropValue
deriving DecidableEq, Repr

/-- Outcomes of the backend calls issued by DynamoDBProber.Probe. -/
structure DynamoResponses where
  describeTable : Except DynamoError TableDescription
  listTagsOfResource : Except String (List (String × String))

/-- Embeds DynamoDBProber.Probe as a function of the backend call
outcomes. -/
def DynamoDBProber.Probe (responses : DynamoResponses) (identifier : String) :
    Except DynamoError ProbeResult :=
  match responses.describeTable with
  | .error e =>
    match e with
    | .resourceNotFound _ => .ok ⟨false, "", [], []⟩
    | .other msg => .error (.other msg)
  | .ok table =>
    let result : ProbeResult :=
      { Exists := true
        Arn := awsToString table.TableArn
        Properties :=
          [("TableName", .str (awsToString table.TableName)),
           ("TableArn", .str (awsToString table.TableArn)),
           ("TableStatus", .str table.TableStatus),
           ("TableId", .str (awsToString table.TableId)),
           ("CreationDateTime", table.CreationDateTime),
           ("ItemCount", table.ItemCount),
           ("TableSizeBytes", table.TableSizeBytes),
           ("DeletionProtection", .bool (table.DeletionProtectionEnabled.getD false)),
           ("BillingModeSummary", table.BillingModeSummary),
           ("ProvisionedThroughput", table.ProvisionedThroughput),
           ("KeySchema", table.KeySchema),
           ("AttributeDefinitions", table.AttributeDefinitions)]
        Tags := [] }
    if result.Arn ≠ "" then
      match responses.listTagsOfResource with
      | .ok tags =>
        if tags.length > 0 then
          .ok { result with
                Tags := tags,
                Properties := result.Properties ++ [("Tags", .strMap tags)] }
        else .ok result
      | .error _ => .ok result
    else .ok result

/-! IAM policy simulation data source (part of the permission-simulation
prober) -/

/-- The AWS SDK string constant for an allowed decision. -/
def PolicyEvaluationDecisionTypeAllowed : String := "allowed"

/-- The AWS SDK string constant for an explicit deny decision. -/
def PolicyEvaluationDecisionTypeExplicitDeny : String := "explicitDeny"

/-- The AWS SDK string constant for an implicit deny decision. -/
def PolicyEvaluationDecisionTypeImplicitDeny : String := "implicitDeny"

/-- Classification of an error from the simulation paginator: a smithy
APIError carrying its error code and message, or a non-API error. -/
inductive IamError where
  | apiError (code : String) (msg : String)
  | otherError (msg : String)
deriving DecidableEq, Repr

/-- Message of an IAM error (err.Error()). -/
def IamError.errorMessage : IamError → String
  | .apiError _ m => m
  | .otherError m => m

/-- Embeds isNoSuchEntityError: errors.As to smithy.APIError and an error
code comparison. -/
def isNoSuchEntityError : IamError → Bool
  | .apiError code _ => code == "NoSuchEntity"
  | .otherError _ => false

/-- Embeds isAccessDeniedError. -/
def isAccessDeniedError : IamError → Bool
  | .apiError code _ => code == "AccessDenied"
  | .otherError _ => false

/-- Embeds iamtypes.Statement fields used by convertResults. -/
structure MatchedStatement where
  SourcePolicyId : Option String
  SourcePolicyType : String
deriving DecidableEq, Repr

/-- Embeds iamtypes.EvaluationResult fields used by the Read path. -/
structure EvaluationResult where
  EvalActionName : Option String
  EvalResourceName : Option String
  EvalDecision : String
  MatchedStatements : List MatchedStatement
  MissingContextValues : List String
deriving DecidableEq, Repr

/-- Embeds decisionToString. -/
def decisionToString (decision : String) : String :=
  if decision = PolicyEvaluationDecisionTypeAllowed then "allowed"
  else if decision = PolicyEvaluationDecisionTypeExplicitDeny then "explicitDeny"
  else if decision = PolicyEvaluationDecisionTypeImplicitDeny then "implicitDeny"
  else decision

/-- One converted per-action-per-resource result object as placed into the
results list attribute. -/
structure SimulationResultObject where
  action : String
  resourceArn : String
  allowed : Bool
  decision : String
  matchedStatements : List (String × String)
  missingContextKeys : List String
deriving DecidableEq, Repr

/-- Embeds the loop body of convertResults building one result object. -/
def convertEvaluationResult (result : EvaluationResult) : SimulationResultObject :=
  { action := awsToString result.EvalActionName
    resourceArn :=
      match result.EvalResourceName with
      | some name => name
      | none => "*"
    allowed := result.EvalDecision == PolicyEvaluationDecisionTypeAllowed
    decision := decisionToString result.EvalDecision
    matchedStatements := result.MatchedStatements.map
      (fun stmt => (awsToString stmt.SourcePolicyId, stmt.SourcePolicyType))
    missingContextKeys := result.MissingContextValues }

/-- Embeds convertResults: an empty result list becomes ListNull (modelled
as none), otherwise the list of converted objects. The ObjectValue and
ListValue calls of the source cannot fail there because the attribute types
are the fixed schema types matched by construction. -/
def convertResults (results : List EvaluationResult) : Option (List SimulationResultObject) :=
  match results with
  | [] => none
  | _ => some (results.map convertEvaluationResult)

/-- Embeds the overall-allowed loop of Read (a scan with early break on the
first non-allowed decision, equal to an all-quantified test). -/
def overallAllowed (allResults : List EvaluationResult) : Bool :=
  allResults.all (fun result => result.EvalDecision == PolicyEvaluationDecisionTypeAllowed)

/-- Outcome of the Read operation: a fatal diagnostic, or state written
back with the computed allowed flag, error string and results list. -/
inductive ReadOutcome where
  | fatal (summary detail : String)
  | state (allowed : Bool) (errorString : Option String)
      (results : Option (List SimulationResultObject))
deriving DecidableEq, Repr

/-- Embeds the pagination loop of IamPolicySimulationDataSource.Read: pages
are consumed in order, the first page error is classified, and on success
the evaluation results of all pages are concatenated. -/
def simulationLoop (policySourceArn : String) :
    List (Except IamError (List EvaluationResult)) → List EvaluationResult → ReadOutcome
  | [], allResults =>
    .state (overallAllowed allResults) none (convertResults allResults)
  | .error err :: _, _ =>
    if isNoSuchEntityError err then
      .state false (some ("principal not found: " ++ policySourceArn)) none
    else if isAccessDeniedError err then
      .state false
        (some "access denied: caller lacks iam:SimulatePrincipalPolicy permission") none
    else
      .fatal "IAM Policy Simulation Failed" err.errorMessage
  | .ok page :: rest, allResults => simulationLoop policySourceArn rest (allResults ++ page)

/-- Embeds IamPolicySimulationDataSource.Read after a successful
buildSimulationInput, as a function of the page outcomes of the
SimulatePrincipalPolicy paginator. -/
def IamPolicySimulationRead (pages : List (Except IamError (List EvaluationResult)))
    (policySourceArn : String) : ReadOutcome :=
  simulationLoop policySourceArn pages []

/-! Specification-side definitions used to state the claims -/

mutual

/-- Specification-side prediction of the attr.Type assigned by the
converter to a Go value: the claim language for the first-element rule. -/
def attrTypeOfGo : GoValue → AttrType
  | .nil => .string
  | .str _ => .string
  | .num _ => .float64
  | .bool _ => .bool
  | .int _ => .string
  | .list [] => .list .string
  | .list (v :: _) => .list (attrTypeOfGo v)
  | .map [] => .map .string
  | .map kvs => .object (attrTypesOfFields kvs)

/-- Predicted attribute types of an object, field by field. -/
def attrTypesOfFields : List (String × GoValue) → List (String × AttrType)
  | [] => []
  | (k, v) :: rest => (k, attrTypeOfGo v) :: attrTypesOfFields rest

end

mutual

/-- Specification-side well-formedness: every non-empty list in the value
has elements whose predicted types all agree with the first element. -/
def uniformLists : GoValue → Bool
  | .nil => true
  | .str _ => true
  | .num _ => true
  | .bool _ => true
  | .int _ => true
  | .list [] => true
  | .list (v :: vs) =>
    uniformElems (v :: vs) &&
      (v :: vs).all (fun w => AttrType.beq (attrTypeOfGo w) (attrTypeOfGo v))
  | .map kvs => uniformFields kvs

/-- Uniformity of all values in a list. -/
def uniformElems : List GoValue → Bool
  | [] => true
  | v :: vs => uniformLists v && uniformElems vs

/-- Uniformity of all values in a field list. -/
def uniformFields : List (String × GoValue) → Bool
  | [] => true
  | (_, v) :: rest => uniformLists v && uniformFields rest

end

/-- Specification-side reading of one extractArn candidate: the value of a
field that is present with a non-empty string value, scanning only the top
level and skipping non-string values. -/
def arnCandidate (properties : List (String × GoValue)) (field : String) : Option String :=
  match goMapLookup properties field with
  | some (GoValue.str s) => if s = "" then none else some s
  | _ => none

/-- Specification-side registry well-formedness: every cached prober has a
registered factory (an invariant of registries populated through
GetProber, which only inserts after a successful factory lookup). -/
def RegistryWellFormed (r : ProberRegistry) : Prop :=
  ∀ k p, goMapLookup r.probers k = some p → (goMapLookup proberFactories k).isSome = true

/-! Helper lemmas about attr.Type equality -/

/-- Reflexivity, stated through equality, of AttrType.beq. -/
theorem AttrType.beq_of_eq : ∀ a b : AttrType, a = b → AttrType.beq a b = true := by
  intro a b
  induction a, b using AttrType.beq.induct (motive_2 :=
      fun xs ys => xs = ys → AttrType.beqFields xs ys = true) with
  | case1 => intro _; rfl
  | case2 => intro _; rfl
  | case3 => intro _; rfl
  | case4 a b ih => intro h; cases h; simp [AttrType.beq]; exact ih rfl
  | case5 a b ih => intro h; cases h; simp [AttrType.beq]; exact ih rfl
  | case6 xs ys ih => intro h; cases h; simp [AttrType.beq]; exact ih rfl
  | case7 t x h1 h2 h3 h4 h5 h6 =>
    intro h; subst h
    cases t with
    | string => exact (h1 rfl rfl).elim
    | float64 => exact (h2 rfl rfl).elim
    | bool => exact (h3 rfl rfl).elim
    | list a => exact (h4 a a rfl rfl).elim
    | map a => exact (h5 a a rfl rfl).elim
    | object xs => exact (h6 xs xs rfl rfl).elim
  | case8 => rfl
  | case9 k a xs l b ys ih1 ih2 =>
    rename_i heq
    cases heq
    simp only [AttrType.beqFields, Bool.and_eq_true]
    exact ⟨⟨by simp, ih1 rfl⟩, ih2 rfl⟩
  | case10 t x h1 h2 =>
    rename_i heq
    subst heq
    cases t with
    | nil => exact (h1 rfl rfl).elim
    | cons p rest => exact (h2 p.1 p.2 rest p.1 p.2 rest (by simp) (by simp)).elim

/-- AttrType.beq is reflexive. -/
theorem AttrType.beq_refl (t : AttrType) : AttrType.beq t t = true :=
  AttrType.beq_of_eq t t rfl

/-! Helper lemmas about uniformity and conversion -/

/-- Uniformity of a list yields uniformity of each member. -/
theorem uniformElems_mem {xs : List GoValue} (h : uniformElems xs = true)
    {u : GoValue} (hu : u ∈ xs) : uniformLists u = true := by
  induction xs with
  | nil => cases hu
  | cons y ys ih =>
    simp only [uniformElems, Bool.and_eq_true] at h
    cases hu with
    | head => exact h.1
    | tail _ hu => exact ih h.2 hu

/-- Uniformity of a field list yields uniformity of each field value. -/
theorem uniformFields_mem {kvs : List (String × GoValue)} (h : uniformFields kvs = true)
    {p : String × GoValue} (hp : p ∈ kvs) : uniformLists p.2 = true := by
  induction kvs with
  | nil => cases hp
  | cons q rest ih =>
    match q with
    | (k, v) =>
      simp only [uniformFields, Bool.and_eq_true] at h
      cases hp with
      | head => exact h.1
      | tail _ hp => exact ih h.2 hp

/-- Element conversion succeeds and predicts types pointwise when each
element converts successfully with its predicted type. -/
theorem convertElems_ok (xs : List GoValue)
    (h : ∀ u ∈ xs, ∃ a, convertToAttrValue u = .ok a ∧ a.typeOf = attrTypeOfGo u) :
    ∃ as, convertElems xs = .ok as ∧ as.map AttrValue.typeOf = xs.map attrTypeOfGo := by
  induction xs with
  | nil => exact ⟨[], rfl, rfl⟩
  | cons v vs ih =>
    obtain ⟨a, ha, hta⟩ := h v (by simp)
    obtain ⟨as, has, htas⟩ := ih (fun u hu => h u (by simp [hu]))
    refine ⟨a :: as, ?_, ?_⟩
    · simp [convertElems, ha, has]
    · simp [htas, hta]

/-- Field conversion succeeds and predicts the object attribute types when
each field value converts successfully with its predicted type. -/
theorem convertFields_ok (kvs : List (String × GoValue))
    (h : ∀ p ∈ kvs, ∃ a, convertToAttrValue p.2 = .ok a ∧ a.typeOf = attrTypeOfGo p.2) :
    ∃ fs, convertFields kvs = .ok fs ∧
      fs.map (fun f => (f.1, f.2.typeOf)) = attrTypesOfFields kvs := by
  induction kvs with
  | nil => exact ⟨[], rfl, rfl⟩
  | cons p rest ih =>
    obtain ⟨a, ha, hta⟩ := h p (by simp)
    obtain ⟨fs, hfs, htfs⟩ := ih (fun q hq => h q (by simp [hq]))
    refine ⟨(p.1, a) :: fs, ?_, ?_⟩
    · simp [convertFields, ha, hfs]
    · simp [attrTypesOfFields, htfs, hta]

/-- Totality of the converter on uniform values, by strong induction on
size: a uniform value converts successfully to a value of the predicted
type. -/
theorem conv_uniform_aux : ∀ (n : Nat) (v : GoValue), sizeOf v ≤ n → uniformLists v = true →
    ∃ a, convertToAttrValue v = .ok a ∧ a.typeOf = attrTypeOfGo v := by
  intro n
  induction n using Nat.strong_induction_on with
  | _ n ih =>
    intro v hsize huni
    match v with
    | .nil => exact ⟨.stringNull, rfl, rfl⟩
    | .str s => exact ⟨.stringVal s, rfl, rfl⟩
    | .num x => exact ⟨.float64Val x, rfl, rfl⟩
    | .bool b => exact ⟨.boolVal b, rfl, rfl⟩
    | .int m => exact ⟨.stringVal (toString m), rfl, rfl⟩
    | .list [] => exact ⟨.listNull .string, by simp [convertToAttrValue], rfl⟩
    | .list (w :: ws) =>
      simp only [uniformLists, Bool.and_eq_true] at huni
      obtain ⟨hall, htypes⟩ := huni
      have hsz : sizeOf (w :: ws) < n := by
        have : sizeOf (GoValue.list (w :: ws)) = 1 + sizeOf (w :: ws) := by
          simp [GoValue.list.sizeOf_spec]
        omega
      have hconv : ∀ u ∈ w :: ws, ∃ a, convertToAttrValue u = .ok a ∧
          a.typeOf = attrTypeOfGo u := by
        intro u hu
        have h1 : sizeOf u < sizeOf (w :: ws) := List.sizeOf_lt_of_mem hu
        exact ih (sizeOf u) (by omega) u le_rfl (uniformElems_mem hall hu)
      obtain ⟨a, ha, hta⟩ := hconv w (by simp)
      obtain ⟨as, has, htas⟩ := convertElems_ok ws (fun u hu => hconv u (by simp [hu]))
      have hcheck : ((a :: as).all fun e => AttrType.beq e.typeOf a.typeOf) = true := by
        rw [List.all_eq_true]
        intro e he
        cases he with
        | head => exact AttrType.beq_refl _
        | tail _ he =>
          have : e.typeOf ∈ ws.map attrTypeOfGo := by
            rw [← htas]; exact List.mem_map_of_mem _ he
          obtain ⟨u, hu, htu⟩ := List.mem_map.mp this
          rw [← htu, hta]
          rw [List.all_eq_true] at htypes
          exact htypes u (by simp [hu])
      refine ⟨.listVal a.typeOf (a :: as), ?_, ?_⟩
      · simp only [convertToAttrValue, ha, has, hcheck, if_true]
      · rw [show (AttrValue.listVal a.typeOf (a :: as)).typeOf = AttrType.list a.typeOf from rfl,
          hta]
        simp [attrTypeOfGo]
    | .map [] => exact ⟨.mapNull .string, by simp [convertToAttrValue], rfl⟩
    | .map (kv :: rest) =>
      simp only [uniformLists] at huni
      have hsz : sizeOf (kv :: rest) < n := by
        have : sizeOf (GoValue.map (kv :: rest)) = 1 + sizeOf (kv :: rest) := by
          simp [GoValue.map.sizeOf_spec]
        omega
      have hconv : ∀ p ∈ kv :: rest, ∃ a, convertToAttrValue p.2 = .ok a ∧
          a.typeOf = attrTypeOfGo p.2 := by
        intro p hp
        have h1 : sizeOf p < sizeOf (kv :: rest) := List.sizeOf_lt_of_mem hp
        have h2 : sizeOf p.2 < sizeOf p := by
          match p with
          | (k, u) => simp [Prod.mk.sizeOf_spec]
        exact ih (sizeOf p.2) (by omega) p.2 le_rfl (uniformFields_mem huni hp)
      obtain ⟨fs, hfs, htfs⟩ := convertFields_ok (kv :: rest) hconv
      refine ⟨.objectVal (fs.map fun f => (f.1, f.2.typeOf)) fs, ?_, ?_⟩
      · simp only [convertToAttrValue, hfs]
      · rw [show (AttrValue.objectVal (fs.map fun f => (f.1, f.2.typeOf)) fs).typeOf =
            AttrType.object (fs.map fun f => (f.1, f.2.typeOf)) from rfl, htfs]
        simp [attrTypeOfGo]

/-! Claim C2 -/

/-- C2 counterexample: the list ["a", true] is well-formed JSON-like input
with elements of differing types, and convertToAttrValue fails on it (the
ListValueMust panic), refuting totality as claimed. -/
theorem c2_counterexample :
    convertToAttrValue (GoValue.list [GoValue.str "a", GoValue.bool true]) =
      Except.error "ListValueMust: mismatched element types" := by
  simp [convertToAttrValue, convertElems, AttrValue.typeOf, AttrType.beq]

/-- C2 (amended): convertToAttrValue returns a converted value without
failing on every value built from null, strings, float64 numbers,
booleans, lists and string-keyed maps whose non-empty lists have elements
of one common converted type; a non-empty list that converts successfully
has its declared element type taken from its first converted element. On a
non-empty list whose elements convert to differing types, the conversion
fails in ListValueMust instead of returning a value. -/
theorem c2_convertToAttrValue_total_on_uniform :
    (∀ v : GoValue, uniformLists v = true →
      ∃ a, convertToAttrValue v = Except.ok a ∧ a.typeOf = attrTypeOfGo v) ∧
    (∀ (w : GoValue) (ws : List GoValue) (a : AttrValue),
      convertToAttrValue (GoValue.list (w :: ws)) = Except.ok a →
      ∃ e es, convertToAttrValue w = Except.ok e ∧ convertElems ws = Except.ok es ∧
        a = AttrValue.listVal e.typeOf (e :: es)) := by
  constructor
  · intro v h
    exact conv_uniform_aux (sizeOf v) v le_rfl h
  · intro w ws a h
    cases hw : convertToAttrValue w with
    | error e => simp only [convertToAttrValue, hw] at h; cases h
    | ok e =>
      cases hs : convertElems ws with
      | error e2 => simp only [convertToAttrValue, hw, hs] at h; cases h
      | ok es =>
        simp only [convertToAttrValue, hw, hs] at h
        by_cases hc : ((e :: es).all fun x => AttrType.beq x.typeOf e.typeOf) = true
        · rw [if_pos hc] at h
          exact ⟨e, es, rfl, rfl, (Except.ok.inj h).symm⟩
        · rw [if_neg hc] at h
          cases h

/-- C2 witness: a concrete uniform value converts successfully with the
predicted type. -/
theorem c2_witness :
    ∃ a, convertToAttrValue
        (GoValue.map [("name", GoValue.str "test"), ("count", GoValue.num ⟨42⟩)]) =
        Except.ok a ∧
      a.typeOf = attrTypeOfGo
        (GoValue.map [("name", GoValue.str "test"), ("count", GoValue.num ⟨42⟩)]) :=
  c2_convertToAttrValue_total_on_uniform.1 _ (by
    simp [uniformLists, uniformFields])

/-! Claim C3 -/

/-- C3: evaluation of convertToAttrValue at the failing input int(42). The
type switch of the source has no integer case, so an integer-shaped number
falls into the default branch and is rendered through fmt.Sprintf as the
string "42" rather than as an integer-typed value; this contradicts the
claim and the unit test TestConvertToAttrValue_Int, which expects a
types.Int64 value. -/
theorem c3_int_rendered_as_string :
    convertToAttrValue (GoValue.int 42) = Except.ok (AttrValue.stringVal "42") ∧
    (AttrValue.stringVal "42").typeOf = AttrType.string := by
  refine ⟨?_, rfl⟩
  simp only [convertToAttrValue]
  rfl

/-! Claim C7 -/

/-- C7: convertToAttrValue maps the empty list and the empty map to the
explicit null marker values ListNull(StringType) and MapNull(StringType),
which satisfy IsNull, and not to an empty-but-typed container. -/
theorem c7_empty_collections_null :
    convertToAttrValue (GoValue.list []) = Except.ok (AttrValue.listNull AttrType.string) ∧
    convertToAttrValue (GoValue.map []) = Except.ok (AttrValue.mapNull AttrType.string) ∧
    (AttrValue.listNull AttrType.string).isNull = true ∧
    (AttrValue.mapNull AttrType.string).isNull = true := by
  exact ⟨by simp [convertToAttrValue], by simp [convertToAttrValue], rfl, rfl⟩

/-! Claim C6 -/

/-- Correspondence of the extractArn loop with a first-match scan of the
priority list: the result is the first candidate value, or the empty
string when no candidate matches. -/
theorem extractArnLoop_eq_findSome (fields : List String) (props : List (String × GoValue)) :
    extractArnLoop fields props = (fields.findSome? (arnCandidate props)).getD "" := by
  induction fields with
  | nil => rfl
  | cons f rest ih =>
    cases hc : goMapLookup props f with
    | none => simp [extractArnLoop, List.findSome?_cons, arnCandidate, hc, ih]
    | some gv =>
      cases gv with
      | str s =>
        by_cases hs : s = ""
        · subst hs; simp [extractArnLoop, List.findSome?_cons, arnCandidate, hc, ih]
        · simp [extractArnLoop, List.findSome?_cons, arnCandidate, hc, hs, ih]
      | nil => simp [extractArnLoop, List.findSome?_cons, arnCandidate, hc, ih]
      | num x => simp [extractArnLoop, List.findSome?_cons, arnCandidate, hc, ih]
      | bool b => simp [extractArnLoop, List.findSome?_cons, arnCandidate, hc, ih]
      | int n => simp [extractArnLoop, List.findSome?_cons, arnCandidate, hc, ih]
      | list xs => simp [extractArnLoop, List.findSome?_cons, arnCandidate, hc, ih]
      | map kvs => simp [extractArnLoop, List.findSome?_cons, arnCandidate, hc, ih]

/-- C6: extractArn returns the value of the first candidate field of the
fixed priority list that is present with a non-empty string value
(non-string values and empty strings are skipped, only top-level fields
are scanned through goMapLookup, and the empty string is returned when no
candidate matches, also for a nil map); in particular a present non-empty
string value at the head field Arn is always returned, regardless of the
other fields, so Arn wins over TableArn. -/
theorem c6_extractArn_first_candidate (props : List (String × GoValue)) :
    extractArn (some props) = (arnFields.findSome? (arnCandidate props)).getD "" ∧
    (∀ a, goMapLookup props "Arn" = some (GoValue.str a) → a ≠ "" →
      extractArn (some props) = a) ∧
    extractArn none = "" := by
  refine ⟨extractArnLoop_eq_findSome arnFields props, ?_, rfl⟩
  intro a ha hne
  show extractArnLoop arnFields props = a
  simp [arnFields, extractArnLoop, ha, hne]

/-- C6 witness: with both TableArn and Arn present carrying non-empty
string values, the Arn value is returned. -/
theorem c6_witness :
    extractArn (some
      [("TableArn", GoValue.str "arn:aws:dynamodb:us-east-1:123456789012:table/test"),
       ("Arn", GoValue.str "arn:aws:generic::123456789012:resource")]) =
      "arn:aws:generic::123456789012:resource" :=
  (c6_extractArn_first_candidate _).2.1 _ rfl (by decide)

/-! Claim C1 -/

/-- C1: when the backend describe call of a prober fails with an error
other than the distinguished not-found signal (for S3: the typed NotFound
and NoSuchBucket errors and any message matched by the isS3NotFound
substring scan; for DynamoDB: the typed ResourceNotFoundException), Probe
propagates the error unchanged and never returns a ProbeResult, in
particular never one with Exists equal to false; this holds for every
identifier and both for the S3 and the DynamoDB prober. -/
theorem c1_backend_prober_permission_error_fatal
    (s3resp : S3Responses) (dynresp : DynamoResponses) (s3id dynId : String)
    (s3msg dynMsg : String)
    (h1 : s3resp.headBucket = some (S3Error.other s3msg))
    (h2 : isS3NotFound s3msg = false)
    (h3 : dynresp.describeTable = Except.error (DynamoError.other dynMsg)) :
    S3Prober.Probe s3resp s3id = Except.error (S3Error.other s3msg) ∧
    (∀ r : ProbeResult, S3Prober.Probe s3resp s3id ≠ Except.ok r) ∧
    DynamoDBProber.Probe dynresp dynId = Except.error (DynamoError.other dynMsg) ∧
    (∀ r : ProbeResult, DynamoDBProber.Probe dynresp dynId ≠ Except.ok r) := by
  have hs : S3Prober.Probe s3resp s3id = Except.error (S3Error.other s3msg) := by
    unfold S3Prober.Probe
    rw [h1]
    simp [h2]
  have hd : DynamoDBProber.Probe dynresp dynId =
      Except.error (DynamoError.other dynMsg) := by
    unfold DynamoDBProber.Probe
    rw [h3]
  refine ⟨hs, ?_, hd, ?_⟩
  · intro r hr; rw [hs] at hr; cases hr
  · intro r hr; rw [hd] at hr; cases hr

/-- C1 witness: a 403 Forbidden HeadBucket error (not matched by the S3
not-found classification) and an AccessDeniedException DescribeTable error
are both propagated as errors. -/
theorem c1_witness :
    S3Prober.Probe ⟨some (S3Error.other "api error Forbidden: Forbidden"),
        Except.error "", Except.error ""⟩ "my-bucket" =
      Except.error (S3Error.other "api error Forbidden: Forbidden") ∧
    (∀ r : ProbeResult,
      S3Prober.Probe ⟨some (S3Error.other "api error Forbidden: Forbidden"),
        Except.error "", Except.error ""⟩ "my-bucket" ≠ Except.ok r) ∧
    DynamoDBProber.Probe ⟨Except.error (DynamoError.other
        "api error AccessDeniedException: not authorized"), Except.ok []⟩ "my-table" =
      Except.error (DynamoError.other "api error AccessDeniedException: not authorized") ∧
    (∀ r : ProbeResult,
      DynamoDBProber.Probe ⟨Except.error (DynamoError.other
        "api error AccessDeniedException: not authorized"), Except.ok []⟩ "my-table" ≠
        Except.ok r) :=
  c1_backend_prober_permission_error_fatal _ _ _ _ _ _ rfl (by decide) rfl

/-! Helper lemmas about the lookup tables -/

/-- A successful map lookup comes from an entry of the table. -/
theorem goMapLookup_mem {α : Type} (l : List (String × α)) (k : String) (v : α)
    (h : goMapLookup l k = some v) : (k, v) ∈ l := by
  induction l with
  | nil => cases h
  | cons p rest ih =>
    match p with
    | (k', v') =>
      simp only [goMapLookup] at h
      by_cases hk : k' = k
      · rw [if_pos hk] at h
        cases h
        subst hk
        exact List.mem_cons_self _ _
      · rw [if_neg hk] at h
        exact List.mem_cons_of_mem _ (ih h)

/-- Every value of the normalizedTypes table is a fixed point of
normalizeTypeName. -/
theorem normalizedTypes_values_fixed :
    ∀ p ∈ normalizedTypes, normalizeTypeName p.2 = p.2 := by decide

/-- Every aws_-prefixed key of the normalizedTypes table maps to itself. -/
theorem normalizedTypes_aws_keys :
    ∀ p ∈ normalizedTypes, goHasPrefix p.1 "aws_" = true → p.2 = p.1 := by decide

/-- No value of the tfToCloudControl table is one of its keys. -/
theorem tfToCloudControl_values :
    ∀ p ∈ tfToCloudControl, goMapLookup tfToCloudControl p.2 = none := by decide

/-- A string built as aws_ followed by anything has the aws_ prefix. -/
theorem goHasPrefix_construct (b c : String) :
    goHasPrefix ("aws_" ++ b ++ "_" ++ c) "aws_" = true := by
  simp only [goHasPrefix, String.data_append, List.append_assoc]
  exact List.isPrefixOf_iff_prefix.mpr (List.prefix_append _ _)

/-- Every aws_-prefixed string is a fixed point of normalizeTypeName. -/
theorem normalizeTypeName_aws_fixed (s : String) (h : goHasPrefix s "aws_" = true) :
    normalizeTypeName s = s := by
  cases hl : goMapLookup normalizedTypes s with
  | none =>
    unfold normalizeTypeName
    simp [hl, h]
  | some v =>
    have hv := normalizedTypes_aws_keys (s, v) (goMapLookup_mem _ _ _ hl) h
    unfold normalizeTypeName
    rw [hl]
    exact hv

/-- Idempotence of normalizeTypeName on every string. -/
theorem normalizeTypeName_idempotent (x : String) :
    normalizeTypeName (normalizeTypeName x) = normalizeTypeName x := by
  cases hl : goMapLookup normalizedTypes x with
  | some v =>
    have hx : normalizeTypeName x = v := by unfold normalizeTypeName; rw [hl]
    rw [hx]
    exact normalizedTypes_values_fixed (x, v) (goMapLookup_mem _ _ _ hl)
  | none =>
    cases hp : goHasPrefix x "aws_" with
    | true =>
      rw [normalizeTypeName_aws_fixed x hp]
      exact normalizeTypeName_aws_fixed x hp
    | false =>
      cases hq : goHasPrefix x "AWS::" with
      | false =>
        have hx : normalizeTypeName x = x := by
          unfold normalizeTypeName; simp [hl, hp, hq]
        rw [hx]; exact hx
      | true =>
        rcases hsp : goSplit x "::" with _ | ⟨a, _ | ⟨b, _ | ⟨c, _ | ⟨d, tail⟩⟩⟩⟩
        · have hx : normalizeTypeName x = x := by
            unfold normalizeTypeName; simp [hl, hp, hq, hsp]
          rw [hx]; exact hx
        · have hx : normalizeTypeName x = x := by
            unfold normalizeTypeName; simp [hl, hp, hq, hsp]
          rw [hx]; exact hx
        · have hx : normalizeTypeName x = x := by
            unfold normalizeTypeName; simp [hl, hp, hq, hsp]
          rw [hx]; exact hx
        · have hx : normalizeTypeName x = "aws_" ++ goToLower b ++ "_" ++ goToLower c := by
            unfold normalizeTypeName; simp [hl, hp, hq, hsp]
          rw [hx]
          exact normalizeTypeName_aws_fixed _ (goHasPrefix_construct _ _)
        · have hx : normalizeTypeName x = x := by
            unfold normalizeTypeName; simp [hl, hp, hq, hsp]
          rw [hx]; exact hx

/-- Idempotence of resolveCloudControlType on every string. -/
theorem resolveCloudControlType_idempotent (x : String) :
    resolveCloudControlType (resolveCloudControlType x) = resolveCloudControlType x := by
  cases hl : goMapLookup tfToCloudControl x with
  | some v =>
    have hx : resolveCloudControlType x = v := by unfold resolveCloudControlType; rw [hl]
    rw [hx]
    have hv := tfToCloudControl_values (x, v) (goMapLookup_mem _ _ _ hl)
    unfold resolveCloudControlType
    rw [hv]
    simp
  | none =>
    have hx : resolveCloudControlType x = x := by
      unfold resolveCloudControlType; rw [hl]; simp
    rw [hx]; exact hx

/-! Claim C8 -/

/-- C8: both type-name resolution functions are idempotent on every input
string, including unrecognized ones. -/
theorem c8_resolvers_idempotent (x : String) :
    normalizeTypeName (normalizeTypeName x) = normalizeTypeName x ∧
    resolveCloudControlType (resolveCloudControlType x) = resolveCloudControlType x :=
  ⟨normalizeTypeName_idempotent x, resolveCloudControlType_idempotent x⟩

/-! Claim C9 -/

/-- Appending a suffix is found by the contains scan. -/
theorem contains_append_suffix (p t : String) : contains (p ++ t) t = true := by
  unfold contains
  rw [List.any_eq_true]
  refine ⟨p.data.length, ?_, ?_⟩
  · rw [List.mem_range, String.data_append, List.length_append]
    omega
  · rw [String.data_append, List.drop_left, List.take_length, decide_eq_true_eq]

/-- C9 counterexample: for the unregistered canonical type aws_foo_bar the
error message of GetProber is exactly "unsupported resource type:
aws_foo_bar"; it does not contain the supported canonical key
aws_s3_bucket even though SupportedTypes lists it, so the error does not
include the list of currently supported canonical keys. -/
theorem c9_counterexample :
    ProberRegistry.GetProber ⟨[]⟩ "aws_foo_bar" =
      Except.error "unsupported resource type: aws_foo_bar" ∧
    "aws_s3_bucket" ∈ ProberRegistry.SupportedTypes ⟨[]⟩ ∧
    contains "unsupported resource type: aws_foo_bar" "aws_s3_bucket" = false := by
  refine ⟨rfl, by decide, by decide⟩

/-- C9 (amended): for every resource-type string whose canonical key has
no registered prober factory, GetProber of a well-formed registry returns
the unsupported-type error whose message is "unsupported resource type: "
followed by the offending raw input string (and therefore contains that
input), and never returns a prober; the message does not include the list
of supported canonical keys. -/
theorem c9_unsupported_type_error (r : ProberRegistry) (resourceType : String)
    (hwf : RegistryWellFormed r)
    (hfac : goMapLookup proberFactories (normalizeTypeName resourceType) = none) :
    ProberRegistry.GetProber r resourceType =
      Except.error ("unsupported resource type: " ++ resourceType) ∧
    contains ("unsupported resource type: " ++ resourceType) resourceType = true ∧
    (∀ (p : ResourceProber) (newReg : ProberRegistry),
      ProberRegistry.GetProber r resourceType ≠ Except.ok (p, newReg)) := by
  have hcache : goMapLookup r.probers (normalizeTypeName resourceType) = none := by
    cases hc : goMapLookup r.probers (normalizeTypeName resourceType) with
    | none => rfl
    | some p =>
      have hiss := hwf _ _ hc
      rw [hfac] at hiss
      cases hiss
  have hmain : ProberRegistry.GetProber r resourceType =
      Except.error ("unsupported resource type: " ++ resourceType) := by
    simp only [ProberRegistry.GetProber, hcache, hfac]
  refine ⟨hmain, contains_append_suffix _ _, ?_⟩
  intro p newReg hcontr
  rw [hmain] at hcontr
  cases hcontr

/-- C9 witness: the unsupported aws_foo_bar lookup on a fresh registry. -/
theorem c9_witness :
    ProberRegistry.GetProber ⟨[]⟩ "aws_foo_bar" =
      Except.error ("unsupported resource type: " ++ "aws_foo_bar") ∧
    contains ("unsupported resource type: " ++ "aws_foo_bar") "aws_foo_bar" = true ∧
    (∀ (p : ResourceProber) (newReg : ProberRegistry),
      ProberRegistry.GetProber ⟨[]⟩ "aws_foo_bar" ≠ Except.ok (p, newReg)) :=
  c9_unsupported_type_error ⟨[]⟩ "aws_foo_bar" (fun _ _ h => by cases h) rfl

/-! Helper lemmas about the simulation pagination loop -/

/-- Successful pages before the first error only grow the accumulator,
which the error classification ignores. -/
theorem simulationLoop_skip_ok (arn : String) (e : IamError)
    (rest : List (Except IamError (List EvaluationResult))) :
    ∀ (pre : List (List EvaluationResult)) (acc : List EvaluationResult),
    simulationLoop arn (pre.map Except.ok ++ Except.error e :: rest) acc =
      simulationLoop arn (Except.error e :: rest) [] := by
  intro pre
  induction pre with
  | nil => intro acc; rfl
  | cons page pre ih =>
    intro acc
    simp only [List.map_cons, List.cons_append, simulationLoop]
    exact ih (acc ++ page)

/-- With only successful pages the loop concatenates every page into the
accumulated result list and writes state from it. -/
theorem simulationLoop_all_ok (arn : String) :
    ∀ (rss : List (List EvaluationResult)) (acc : List EvaluationResult),
    simulationLoop arn (rss.map Except.ok) acc =
      ReadOutcome.state (overallAllowed (acc ++ rss.join)) none
        (convertResults (acc ++ rss.join)) := by
  intro rss
  induction rss with
  | nil => intro acc; simp [simulationLoop]
  | cons page rss ih =>
    intro acc
    simp only [List.map_cons, simulationLoop, List.join_cons]
    rw [ih (acc ++ page)]
    simp [List.append_assoc]

/-- The overall-allowed scan equals the decided universal statement that
every decision is the allowed kind. -/
theorem overallAllowed_eq_decide (xs : List EvaluationResult) :
    overallAllowed xs =
      decide (∀ r ∈ xs, r.EvalDecision = PolicyEvaluationDecisionTypeAllowed) := by
  by_cases h : ∀ r ∈ xs, r.EvalDecision = PolicyEvaluationDecisionTypeAllowed
  · rw [decide_eq_true h]
    unfold overallAllowed
    rw [List.all_eq_true]
    intro r hr
    exact beq_iff_eq.mpr (h r hr)
  · rw [decide_eq_false h]
    unfold overallAllowed
    cases hall : xs.all (fun r => r.EvalDecision == PolicyEvaluationDecisionTypeAllowed) with
    | false => rfl
    | true =>
      exfalso
      apply h
      intro r hr
      exact beq_iff_eq.mp (List.all_eq_true.mp hall r hr)

/-! Claim C4 -/

/-- C4: when the paginated evaluation call fails with a NoSuchEntity error
(after any number of successful pages), Read returns a non-fatal state
with allowed false, the non-empty error string "principal not found: "
followed by the principal ARN, and results absent; it never surfaces a
fatal diagnostic. -/
theorem c4_principal_not_found_nonfatal (pre : List (List EvaluationResult))
    (rest : List (Except IamError (List EvaluationResult))) (e : IamError) (arn : String)
    (h : isNoSuchEntityError e = true) :
    IamPolicySimulationRead (pre.map Except.ok ++ Except.error e :: rest) arn =
      ReadOutcome.state false (some ("principal not found: " ++ arn)) none ∧
    ("principal not found: " ++ arn) ≠ "" ∧
    (∀ s d, IamPolicySimulationRead (pre.map Except.ok ++ Except.error e :: rest) arn ≠
      ReadOutcome.fatal s d) := by
  have hmain : IamPolicySimulationRead (pre.map Except.ok ++ Except.error e :: rest) arn =
      ReadOutcome.state false (some ("principal not found: " ++ arn)) none := by
    unfold IamPolicySimulationRead
    rw [simulationLoop_skip_ok arn e rest pre []]
    simp [simulationLoop, h]
  refine ⟨hmain, ?_, ?_⟩
  · intro hc
    have hlen := congrArg String.length hc
    rw [String.length_append] at hlen
    have h21 : ("principal not found: ").length = 21 := rfl
    have h0 : ("").length = 0 := rfl
    rw [h21, h0] at hlen
    omega
  · intro s d hc
    rw [hmain] at hc
    cases hc

/-- C4 witness: one successful page followed by a NoSuchEntity error. -/
theorem c4_witness :
    IamPolicySimulationRead
      (([[⟨some "s3:GetObject", some "*", "allowed", [], []⟩]] :
          List (List EvaluationResult)).map Except.ok ++
        Except.error (IamError.apiError "NoSuchEntity"
          "NoSuchEntity: the user with name missing cannot be found") :: [])
      "arn:aws:iam::123456789012:user/missing" =
      ReadOutcome.state false
        (some ("principal not found: " ++ "arn:aws:iam::123456789012:user/missing")) none ∧
    ("principal not found: " ++ "arn:aws:iam::123456789012:user/missing") ≠ "" ∧
    (∀ s d,
      IamPolicySimulationRead
        (([[⟨some "s3:GetObject", some "*", "allowed", [], []⟩]] :
            List (List EvaluationResult)).map Except.ok ++
          Except.error (IamError.apiError "NoSuchEntity"
            "NoSuchEntity: the user with name missing cannot be found") :: [])
        "arn:aws:iam::123456789012:user/missing" ≠ ReadOutcome.fatal s d) :=
  c4_principal_not_found_nonfatal _ _ _ _ rfl

/-! Claim C5 -/

/-- C5: over any succession of successful pages, the overall allowed
output equals the logical AND, over all per-action-per-resource
evaluation results of all pages, of the decision being the allowed kind;
a single result of another kind anywhere makes it false; and for the
empty result list the output is allowed true with results absent. -/
theorem c5_overall_allowed_logical_and (rss : List (List EvaluationResult)) (arn : String) :
    IamPolicySimulationRead (rss.map Except.ok) arn =
      ReadOutcome.state
        (decide (∀ r ∈ rss.join, r.EvalDecision = PolicyEvaluationDecisionTypeAllowed))
        none (convertResults rss.join) ∧
    (rss.join = [] →
      IamPolicySimulationRead (rss.map Except.ok) arn =
        ReadOutcome.state true none none) ∧
    (∀ r ∈ rss.join, r.EvalDecision ≠ PolicyEvaluationDecisionTypeAllowed →
      IamPolicySimulationRead (rss.map Except.ok) arn =
        ReadOutcome.state false none (convertResults rss.join)) := by
  have hmain : IamPolicySimulationRead (rss.map Except.ok) arn =
      ReadOutcome.state (overallAllowed rss.join) none (convertResults rss.join) := by
    unfold IamPolicySimulationRead
    have hloop := simulationLoop_all_ok arn rss []
    simpa using hloop
  refine ⟨?_, ?_, ?_⟩
  · rw [hmain, overallAllowed_eq_decide]
  · intro hj
    rw [hmain, hj]
    rfl
  · intro r hr hne
    rw [hmain, overallAllowed_eq_decide,
      decide_eq_false (fun hforall => hne (hforall r hr))]

/-- C5 witness: two pages, one allowed and one implicit deny, give overall
false while the converted results are retained. -/
theorem c5_witness :
    IamPolicySimulationRead
      (([[⟨some "s3:GetObject", some "*", "allowed", [], []⟩],
         [⟨some "s3:PutObject", some "*", "implicitDeny", [], []⟩]] :
          List (List EvaluationResult)).map Except.ok) "arn:aws:iam::123456789012:user/u" =
      ReadOutcome.state false none
        (convertResults
          ([[⟨some "s3:GetObject", some "*", "allowed", [], []⟩],
            [⟨some "s3:PutObject", some "*", "implicitDeny", [], []⟩]] :
             List (List EvaluationResult)).join) :=
  (c5_overall_allowed_logical_and _ _).2.2
    ⟨some "s3:PutObject", some "*", "implicitDeny", [], []⟩ (by decide) (by decide)

/-! Claim C10 -/

/-- C10: in every list produced by convertResults, each converted object
has allowed true exactly when its decision string is "allowed", and a
decision string of "explicitDeny" or "implicitDeny" forces allowed
false. -/
theorem c10_result_allowed_iff_decision (results : List EvaluationResult)
    (objs : List SimulationResultObject) (h : convertResults results = some objs) :
    ∀ o ∈ objs, (o.allowed = true ↔ o.decision = "allowed") ∧
      ((o.decision = "explicitDeny" ∨ o.decision = "implicitDeny") → o.allowed = false) := by
  intro o ho
  have hobjs : objs = results.map convertEvaluationResult := by
    cases results with
    | nil => cases h
    | cons r rs =>
      simp only [convertResults] at h
      cases h
      rfl
  subst hobjs
  obtain ⟨r, hr, rfl⟩ := List.mem_map.mp ho
  constructor
  · show ((r.EvalDecision == PolicyEvaluationDecisionTypeAllowed) = true ↔
      decisionToString r.EvalDecision = "allowed")
    rw [beq_iff_eq]
    constructor
    · intro hd
      rw [show decisionToString r.EvalDecision =
        decisionToString PolicyEvaluationDecisionTypeAllowed from by rw [hd]]
      rfl
    · intro hd
      by_contra hne
      unfold decisionToString at hd
      rw [if_neg hne] at hd
      by_cases h2 : r.EvalDecision = PolicyEvaluationDecisionTypeExplicitDeny
      · rw [if_pos h2] at hd
        exact absurd hd (by decide)
      · rw [if_neg h2] at hd
        by_cases h3 : r.EvalDecision = PolicyEvaluationDecisionTypeImplicitDeny
        · rw [if_pos h3] at hd
          exact absurd hd (by decide)
        · rw [if_neg h3] at hd
          exact hne hd
  · intro hdeny
    show (r.EvalDecision == PolicyEvaluationDecisionTypeAllowed) = false
    rw [beq_eq_false_iff_ne]
    intro heq
    have hdec : decisionToString r.EvalDecision = "allowed" := by
      rw [show decisionToString r.EvalDecision =
        decisionToString PolicyEvaluationDecisionTypeAllowed from by rw [heq]]
      rfl
    rcases hdeny with hd | hd
    · rw [show (convertEvaluationResult r).decision =
        decisionToString r.EvalDecision from rfl, hdec] at hd
      exact absurd hd (by decide)
    · rw [show (convertEvaluationResult r).decision =
        decisionToString r.EvalDecision from rfl, hdec] at hd
      exact absurd hd (by decide)

/-- C10 witness: a converted explicit-deny result has allowed false and a
decision string that is not "allowed". -/
theorem c10_witness :
    ((convertEvaluationResult ⟨some "iam:CreateUser", some "*", "explicitDeny", [], []⟩).allowed
        = true ↔
      (convertEvaluationResult
        ⟨some "iam:CreateUser", some "*", "explicitDeny", [], []⟩).decision = "allowed") ∧
    (((convertEvaluationResult
          ⟨some "iam:CreateUser", some "*", "explicitDeny", [], []⟩).decision = "explicitDeny" ∨
      (convertEvaluationResult
          ⟨some "iam:CreateUser", some "*", "explicitDeny", [], []⟩).decision = "implicitDeny") →
      (convertEvaluationResult
        ⟨some "iam:CreateUser", some "*", "explicitDeny", [], []⟩).allowed = false) :=
  c10_result_allowed_iff_decision
    [⟨some "iam:CreateUser", some "*", "explicitDeny", [], []⟩] _ rfl _ (by simp)
